import Mathlib

/-!
Shallow embedding of the superforms-web tutorial examples.

Sources embedded:
- the tutorial page (load function, default form action, page display sample);
- src/routes/concepts/client-validation/Form.svelte (tag validator,
  addTag handler, tags each-block markup).
-/

set_option maxHeartbeats 1000000

namespace SuperformsWeb

/-- Field constraints as printed in the tutorial POST log:
`constraints: { name: { required: true }, email: { required: true } }`. -/
structure FieldConstraints where
  required : Bool
deriving DecidableEq, Repr

/-- The validation object returned by superValidate, with the fields shown in
the tutorial POST log: valid, errors, data, empty, message, constraints. -/
structure ValidationObject where
  valid : Bool
  errors : List (String × List String)
  data : List (String × String)
  empty : Bool
  message : Option String
  constraints : List (String × FieldConstraints)
deriving DecidableEq, Repr

/-- Result of a SvelteKit load function or form action as the tutorial uses
them: either a plain data object carrying the form, or a call to
`fail(status, { form })`. -/
inductive HandlerResult where
  | formData (form : ValidationObject)
  | failWith (status : Nat) (form : ValidationObject)
deriving DecidableEq, Repr

/-- The documented load function from the tutorial:
`const form = await superValidate(event, schema); return { form };`.
It is parametric in the event type, the schema type and the external
superValidate function. -/
def load {Event Schema : Type} (superValidate : Event → Schema → ValidationObject)
    (schema : Schema) (event : Event) : HandlerResult :=
  let form := superValidate event schema
  HandlerResult.formData form

/-- The documented default form action from the tutorial:
validate, return `fail(400, { form })` when not valid, else `{ form }`. -/
def actionsDefault {Event Schema : Type} (superValidate : Event → Schema → ValidationObject)
    (schema : Schema) (event : Event) : HandlerResult :=
  let form := superValidate event schema
  if !form.valid then
    HandlerResult.failWith 400 form
  else
    HandlerResult.formData form

/-- The tags validator callback from Form.svelte:
`(tag) => tag.length < 2 ? 'Tag must be at least 2 characters' : null`. -/
def tagsValidator (tag : String) : Option String :=
  if tag.length < 2 then some "Tag must be at least 2 characters" else none

/-- The validators option passed to superForm in Form.svelte: a record with
the single field `tags`. -/
def validators : List (String × (String → Option String)) :=
  [("tags", tagsValidator)]

/-- A deferred continuation scheduled by Form.svelte: the setTimeout body in
addTag, which resets newTag to the empty string. -/
inductive Deferred where
  | resetNewTag
deriving DecidableEq, Repr

/-- The reactive state of Form.svelte that addTag touches: the tags array of
the form store, the newTag input binding, and the queue of continuations
scheduled with setTimeout that have not yet executed. -/
structure FormState where
  tags : List String
  newTag : String
  pending : List Deferred
deriving DecidableEq, Repr

/-- JavaScript truthiness of a string: the empty string is the only falsy
string, so the guard `if (!newTag) return` fires exactly on the empty
string. -/
def jsTruthy (s : String) : Bool := !(s == "")

/-- The addTag handler from Form.svelte. The guard and the append to
$form.tags run synchronously inside the invocation; the setTimeout body that
clears newTag is only scheduled here and runs later, so it is recorded on the
pending queue. -/
def addTag (s : FormState) : FormState :=
  if !(jsTruthy s.newTag) then s
  else
    { s with
      tags := s.tags ++ [s.newTag]
      pending := s.pending ++ [Deferred.resetNewTag] }

/-- Run one deferred continuation against the state. -/
def runDeferred (s : FormState) (d : Deferred) : FormState :=
  match d with
  | Deferred.resetNewTag => { s with newTag := "" }

/-- The timer queue firing after the handler returned: run every pending
continuation, oldest first, emptying the queue. -/
def firePending (s : FormState) : FormState :=
  s.pending.foldl runDeferred { s with pending := [] }

/-- The properties returned by superForm that the examples use. -/
inductive SuperFormProp where
  | form
  | errors
  | constraints
  | message
  | enhance
deriving DecidableEq, Repr

/-- The four properties the spec names as the client display contract. -/
def displayContract : List SuperFormProp :=
  [SuperFormProp.form, SuperFormProp.errors, SuperFormProp.constraints,
   SuperFormProp.message]

/-- Properties destructured from superForm in Form.svelte:
`const { form, errors, enhance, message, constraints } = superForm(...)`. -/
def formSvelteObtained : List SuperFormProp :=
  [SuperFormProp.form, SuperFormProp.errors, SuperFormProp.enhance,
   SuperFormProp.message, SuperFormProp.constraints]

/-- SuperForm stores referenced in the markup of Form.svelte: $message in the
message block, $form.tags in the each block and its bind:value, $errors.tags
in data-invalid and in the error span. The destructured constraints store
never appears in the markup. -/
def formSvelteBound : List SuperFormProp :=
  [SuperFormProp.message, SuperFormProp.form, SuperFormProp.errors]

/-- Properties destructured from superForm in the final +page.svelte sample of
the tutorial: `const { form, errors, constraints } = superForm(data.form)`. -/
def pageSvelteObtained : List SuperFormProp :=
  [SuperFormProp.form, SuperFormProp.errors, SuperFormProp.constraints]

/-- SuperForm stores referenced in the markup of the +page.svelte sample:
bind:value uses $form, data-invalid and the invalid spans use $errors, and
$constraints is spread on the inputs. -/
def pageSvelteBound : List SuperFormProp :=
  [SuperFormProp.form, SuperFormProp.errors, SuperFormProp.constraints]

/-- A rendered tag input row from the each block of Form.svelte: the input
value, the data-invalid attribute (none meaning the attribute is omitted) and
the error span (none meaning no span is rendered). -/
structure TagInputRender where
  value : String
  dataInvalid : Option String
  errorSpan : Option String
deriving DecidableEq, Repr

/-- Placeholder row used as a getD default when indexing rendered rows. -/
def noRender : TagInputRender :=
  { value := "", dataInvalid := none, errorSpan := none }

/-- The JavaScript expression $errors.tags?.[i]: undefined when errors.tags is
absent, when the index is out of range, or when the entry itself is
undefined. -/
def errLookup (errTags : Option (List (Option String))) (i : Nat) : Option String :=
  match errTags with
  | none => none
  | some l => l.getD i none

/-- Truthiness of $errors.tags?.[i] as tested by the if block: undefined and
the empty string are falsy. -/
def errTruthy (e : Option String) : Bool :=
  match e with
  | none => false
  | some s => jsTruthy s

/-- The each block over $form.tags in Form.svelte: one input per tag index,
with data-invalid set to $errors.tags?.[i] and an error span rendered exactly
when that value is truthy. -/
def renderTagInputs (tags : List String) (errTags : Option (List (Option String))) :
    List TagInputRender :=
  (List.range tags.length).map fun i =>
    { value := tags.getD i ""
      dataInvalid := errLookup errTags i
      errorSpan := if errTruthy (errLookup errTags i) then errLookup errTags i else none }

/-- Well-formed error arrays: entries are either absent or nonempty messages,
as produced by the validators and the validation library. -/
def errorsWellFormed (errTags : Option (List (Option String))) : Bool :=
  match errTags with
  | none => true
  | some l => l.all fun e => !(e == some "")

end SuperformsWeb

namespace SuperformsWeb

/-- C6: the documented load handler returns `{ form }` where form is the
superValidate result, and it has no failure outcome. -/
theorem load_returns_form {Event Schema : Type}
    (superValidate : Event → Schema → ValidationObject) (schema : Schema) (event : Event) :
    load superValidate schema event = HandlerResult.formData (superValidate event schema) ∧
    ∀ status form, load superValidate schema event ≠ HandlerResult.failWith status form := by
  refine ⟨rfl, ?_⟩
  intro status form h
  simp [load] at h

/-- C1: the default action returns `fail(400, { form })` exactly when the
validation object is not valid, and `{ form }` exactly when it is valid; no
other outcome is possible. -/
theorem actionsDefault_outcomes {Event Schema : Type}
    (superValidate : Event → Schema → ValidationObject) (schema : Schema) (event : Event) :
    ((superValidate event schema).valid = false ∧
      actionsDefault superValidate schema event =
        HandlerResult.failWith 400 (superValidate event schema)) ∨
    ((superValidate event schema).valid = true ∧
      actionsDefault superValidate schema event =
        HandlerResult.formData (superValidate event schema)) := by
  unfold actionsDefault
  cases h : (superValidate event schema).valid with
  | false => exact Or.inl ⟨rfl, by simp [h]⟩
  | true => exact Or.inr ⟨rfl, by simp [h]⟩

/-- C2: there is a single validator callback (for the tags field), and it
returns the message exactly for strings of fewer than 2 characters and null
for all longer strings. -/
theorem tagsValidator_spec (tag : String) :
    validators.length = 1 ∧ validators.map Prod.fst = ["tags"] ∧
    (tagsValidator tag = some "Tag must be at least 2 characters" ↔ tag.length < 2) ∧
    (tagsValidator tag = none ↔ 2 ≤ tag.length) := by
  refine ⟨rfl, rfl, ?_, ?_⟩ <;> unfold tagsValidator <;> split <;> simp_all

/-- Running deferred continuations never touches the tags array. -/
theorem foldl_runDeferred_tags (l : List Deferred) (s : FormState) :
    (l.foldl runDeferred s).tags = s.tags := by
  induction l generalizing s with
  | nil => rfl
  | cons d l ih =>
    cases d
    simp [List.foldl_cons, runDeferred, ih]

/-- C7: invoked with a nonempty newTag, addTag appends exactly that value at
the end of the tags array: the length grows by one and every earlier element
keeps its value and position. -/
theorem addTag_appends (s : FormState) (h : s.newTag ≠ "") :
    (addTag s).tags = s.tags ++ [s.newTag] ∧
    (addTag s).tags.length = s.tags.length + 1 ∧
    (addTag s).tags.take s.tags.length = s.tags := by
  have hj : jsTruthy s.newTag = true := by simp [jsTruthy, h]
  have ht : (addTag s).tags = s.tags ++ [s.newTag] := by simp [addTag, hj]
  refine ⟨ht, ?_, ?_⟩
  · rw [ht]; simp
  · rw [ht]; exact List.take_left s.tags [s.newTag]

/-- Witness for addTag_appends at a concrete state. -/
theorem addTag_appends_witness :
    (FormState.mk ["ab"] "cd" []).newTag ≠ "" ∧
    ((addTag (FormState.mk ["ab"] "cd" [])).tags = ["ab"] ++ ["cd"] ∧
     (addTag (FormState.mk ["ab"] "cd" [])).tags.length =
       (["ab"] : List String).length + 1 ∧
     (addTag (FormState.mk ["ab"] "cd" [])).tags.take
       (["ab"] : List String).length = ["ab"]) :=
  ⟨by decide, addTag_appends (FormState.mk ["ab"] "cd" []) (by decide)⟩

/-- C8: invoked with newTag equal to the empty string, addTag returns
immediately and leaves the whole state, in particular tags and newTag,
unchanged. -/
theorem addTag_empty_noop (s : FormState) (h : s.newTag = "") :
    addTag s = s ∧ (addTag s).tags = s.tags ∧ (addTag s).newTag = s.newTag := by
  have hj : jsTruthy s.newTag = false := by simp [jsTruthy, h]
  have he : addTag s = s := by simp [addTag, hj]
  exact ⟨he, by rw [he], by rw [he]⟩

/-- Witness for addTag_empty_noop at a concrete state. -/
theorem addTag_empty_noop_witness :
    (FormState.mk ["ab"] "" []).newTag = "" ∧
    (addTag (FormState.mk ["ab"] "" []) = FormState.mk ["ab"] "" [] ∧
     (addTag (FormState.mk ["ab"] "" [])).tags = (FormState.mk ["ab"] "" []).tags ∧
     (addTag (FormState.mk ["ab"] "" [])).newTag = (FormState.mk ["ab"] "" []).newTag) :=
  ⟨rfl, addTag_empty_noop (FormState.mk ["ab"] "" []) rfl⟩

/-- C9: after addTag runs with a nonempty newTag, the tag is already appended
while newTag still holds its old value; only when the deferred setTimeout
body fires is newTag reset to the empty string, and the tags array is not
touched again at that point. -/
theorem addTag_reset_after_append (s : FormState) (h : s.newTag ≠ "") :
    (addTag s).tags = s.tags ++ [s.newTag] ∧
    (addTag s).newTag = s.newTag ∧
    (addTag s).pending = s.pending ++ [Deferred.resetNewTag] ∧
    (firePending (addTag s)).newTag = "" ∧
    (firePending (addTag s)).tags = (addTag s).tags := by
  have hj : jsTruthy s.newTag = true := by simp [jsTruthy, h]
  have ht : (addTag s).tags = s.tags ++ [s.newTag] := by simp [addTag, hj]
  have hp : (addTag s).pending = s.pending ++ [Deferred.resetNewTag] := by
    simp [addTag, hj]
  have hn : (addTag s).newTag = s.newTag := by simp [addTag, hj]
  refine ⟨ht, hn, hp, ?_, ?_⟩
  · unfold firePending
    rw [hp, List.foldl_append]
    simp [runDeferred]
  · unfold firePending
    rw [foldl_runDeferred_tags]

/-- Witness for addTag_reset_after_append at a concrete state. -/
theorem addTag_reset_after_append_witness :
    (FormState.mk [] "ab" []).newTag ≠ "" ∧
    ((addTag (FormState.mk [] "ab" [])).tags = [] ++ ["ab"] ∧
     (addTag (FormState.mk [] "ab" [])).newTag = "ab" ∧
     (addTag (FormState.mk [] "ab" [])).pending = [] ++ [Deferred.resetNewTag] ∧
     (firePending (addTag (FormState.mk [] "ab" []))).newTag = "" ∧
     (firePending (addTag (FormState.mk [] "ab" []))).tags =
       (addTag (FormState.mk [] "ab" [])).tags) :=
  ⟨by decide, addTag_reset_after_append (FormState.mk [] "ab" []) (by decide)⟩

/-- C3 as stated is false: at a concrete state, a single invocation of addTag
changes the tags array immediately, and two rapid invocations, both before
any timer fires, each append a copy, so the effect on the tags list is
neither delayed nor coalesced. -/
theorem addTag_not_debounced :
    (addTag (FormState.mk ["ab"] "cd" [])).tags ≠ (FormState.mk ["ab"] "cd" []).tags ∧
    (addTag (addTag (FormState.mk ["ab"] "cd" []))).tags = ["ab", "cd", "cd"] := by
  decide

/-- C3 amended: the effect of addTag on the tags array is immediate on every
invocation with a nonempty newTag; only the reset of newTag is deferred (to
the scheduled setTimeout body), which is why a second rapid invocation
appends the same value again. -/
theorem addTag_effect_immediate (s : FormState) (h : s.newTag ≠ "") :
    (addTag s).tags = s.tags ++ [s.newTag] ∧
    (addTag (addTag s)).tags = (s.tags ++ [s.newTag]) ++ [s.newTag] ∧
    (addTag s).pending = s.pending ++ [Deferred.resetNewTag] := by
  have hj : jsTruthy s.newTag = true := by simp [jsTruthy, h]
  have ht : (addTag s).tags = s.tags ++ [s.newTag] := by simp [addTag, hj]
  have hn : (addTag s).newTag = s.newTag := by simp [addTag, hj]
  refine ⟨ht, ?_, by simp [addTag, hj]⟩
  have ht2 : (addTag (addTag s)).tags = (addTag s).tags ++ [(addTag s).newTag] := by
    simp [addTag, hn, hj]
  rw [ht2, ht, hn]

/-- Witness for addTag_effect_immediate at a concrete state. -/
theorem addTag_effect_immediate_witness :
    (FormState.mk ["xy"] "zw" []).newTag ≠ "" ∧
    ((addTag (FormState.mk ["xy"] "zw" [])).tags = ["xy"] ++ ["zw"] ∧
     (addTag (addTag (FormState.mk ["xy"] "zw" []))).tags =
       (["xy"] ++ ["zw"]) ++ ["zw"] ∧
     (addTag (FormState.mk ["xy"] "zw" [])).pending = [] ++ [Deferred.resetNewTag]) :=
  ⟨by decide, addTag_effect_immediate (FormState.mk ["xy"] "zw" []) (by decide)⟩

/-- C4 as stated is false: Form.svelte obtains constraints from superForm but
never binds it in its markup, and the +page.svelte sample does not obtain
message at all. -/
theorem display_contract_not_per_component :
    SuperFormProp.constraints ∈ formSvelteObtained ∧
    SuperFormProp.constraints ∉ formSvelteBound ∧
    SuperFormProp.message ∉ pageSvelteObtained := by
  decide

/-- C4 amended: across the two client components together, the display
contract is exactly form, errors, constraints and message: each of the four
is obtained from superForm and bound in the markup of at least one component,
every store bound in markup belongs to the contract, and each component binds
only stores it obtained. -/
theorem display_contract_covered :
    (displayContract.all fun p =>
      (formSvelteObtained.contains p || pageSvelteObtained.contains p) &&
      (formSvelteBound.contains p || pageSvelteBound.contains p)) = true ∧
    (formSvelteBound.all fun p => displayContract.contains p) = true ∧
    (pageSvelteBound.all fun p => displayContract.contains p) = true ∧
    (formSvelteBound.all fun p => formSvelteObtained.contains p) = true ∧
    (pageSvelteBound.all fun p => pageSvelteObtained.contains p) = true := by
  decide

/-- A well-formed error array never yields the empty string at any index. -/
theorem errLookup_ne_empty (errTags : Option (List (Option String)))
    (hwf : errorsWellFormed errTags = true) (i : Nat) :
    errLookup errTags i ≠ some "" := by
  cases errTags with
  | none => simp [errLookup]
  | some l =>
    simp only [errorsWellFormed, List.all_eq_true] at hwf
    simp only [errLookup]
    by_cases hi : i < l.length
    · rw [List.getD_eq_getElem l none hi]
      intro hcontra
      have hmem : l[i] ∈ l := List.getElem_mem hi
      have hbad := hwf _ hmem
      rw [hcontra] at hbad
      simp at hbad
    · rw [List.getD_eq_default l none (Nat.le_of_not_lt hi)]
      simp

/-- C5: for every tag index, the rendered row of the each block carries
data-invalid equal to the error at that index and renders the error text span
with exactly that error, so error markup appears exactly at the indices where
an error is present and at no others. -/
theorem tag_errors_surfaced (tags : List String) (errTags : Option (List (Option String)))
    (hwf : errorsWellFormed errTags = true) (i : Nat) (hi : i < tags.length) :
    (renderTagInputs tags errTags).length = tags.length ∧
    ((renderTagInputs tags errTags).getD i noRender).dataInvalid = errLookup errTags i ∧
    ((renderTagInputs tags errTags).getD i noRender).errorSpan = errLookup errTags i := by
  have hlen : (renderTagInputs tags errTags).length = tags.length := by
    simp [renderTagInputs]
  have hi2 : i < (renderTagInputs tags errTags).length := by rw [hlen]; exact hi
  have hrow : (renderTagInputs tags errTags).getD i noRender =
      { value := tags.getD i ""
        dataInvalid := errLookup errTags i
        errorSpan :=
          if errTruthy (errLookup errTags i) then errLookup errTags i else none } := by
    rw [List.getD_eq_getElem _ _ hi2]
    simp [renderTagInputs, hi]
  refine ⟨hlen, by rw [hrow], ?_⟩
  rw [hrow]
  cases he : errLookup errTags i with
  | none => simp [errTruthy]
  | some s =>
    have hne : s ≠ "" := by
      intro hs
      subst hs
      exact errLookup_ne_empty errTags hwf i he
    simp [errTruthy, jsTruthy, hne]

/-- Witness for tag_errors_surfaced at a concrete state with one error. -/
theorem tag_errors_surfaced_witness :
    errorsWellFormed (some [some "Tag must be at least 2 characters"]) = true ∧
    (0 : Nat) < (["a", "bc"] : List String).length ∧
    ((renderTagInputs ["a", "bc"]
        (some [some "Tag must be at least 2 characters"])).length =
      (["a", "bc"] : List String).length ∧
     ((renderTagInputs ["a", "bc"]
        (some [some "Tag must be at least 2 characters"])).getD 0 noRender).dataInvalid =
      errLookup (some [some "Tag must be at least 2 characters"]) 0 ∧
     ((renderTagInputs ["a", "bc"]
        (some [some "Tag must be at least 2 characters"])).getD 0 noRender).errorSpan =
      errLookup (some [some "Tag must be at least 2 characters"]) 0) :=
  ⟨by decide, by decide,
    tag_errors_surfaced ["a", "bc"] (some [some "Tag must be at least 2 characters"])
      (by decide) 0 (by decide)⟩

end SuperformsWeb
